import Mathlib

/-!
Verification development for dozzle's `internal/web/logs.go`.

The Go handlers are shallowly embedded: each handler becomes a Lean
function from the request and the results of its external collaborators
(container registry, log transport, JSON codec, time parser) to the
ordered list of observable actions it performs (headers set, HTTP errors,
body writes, log-fetch calls, producer spawns, flushes, diagnostics).
The streaming merge loop becomes a step function on an explicit loop
state driven by a schedule of channel selections, since Go's `select`
is nondeterministic among ready channels.
-/

namespace Dozzle

/-- A decoded log event (`docker.LogEvent`): container id, host,
timestamp in nanoseconds (0 when unknown) and message payload. -/
structure LogEvent where
  containerId : String
  host : String
  timestamp : Int
  message : String
deriving DecidableEq, Repr

/-- A container lifecycle event (`docker.ContainerEvent`): the acting
container's id, the event name and the host. -/
structure ContainerEvent where
  actorId : String
  name : String
  host : String
deriving DecidableEq, Repr

/-- A container descriptor snapshot (`docker.Container`): the fields
`logs.go` reads — id, host, name, state, labels, compose group, tty. -/
structure Container where
  id : String
  host : String
  name : String
  state : String
  labels : List (String × String)
  group : String
  tty : Bool
deriving DecidableEq, Repr

/-- Go map lookup `container.Labels[key]`: the empty string when absent. -/
def getLabel (labels : List (String × String)) (key : String) : String :=
  match labels.find? (fun p => p.1 == key) with
  | some p => p.2
  | none => ""

/-- `docker.STDOUT` bit flag. -/
def STDOUT : Nat := 1

/-- `docker.STDERR` bit flag. -/
def STDERR : Nat := 2

/-- The `stdTypes` bitmask every handler computes from the `stdout` and
`stderr` query flags (`stdTypes |= docker.STDOUT` etc.). -/
def computeStdTypes (hasStdout hasStderr : Bool) : Nat :=
  (if hasStdout then STDOUT else 0) ||| (if hasStderr then STDERR else 0)

/-- The request data `logs.go` reads: the `id` URL parameter, the
`stdout`/`stderr`/`from`/`to` query values, whether the client's
`Accept-Encoding` header contains `gzip`, and the host key. -/
structure Request where
  urlParamId : String
  hasStdout : Bool
  hasStderr : Bool
  queryFrom : String
  queryTo : String
  acceptsGzip : Bool
  host : String
deriving DecidableEq, Repr

/-- One observable action of a handler, in program order: response
headers, HTTP errors, collaborator calls, body writes, flushes and
diagnostic log lines. -/
inductive Action where
  | setHeader (key value : String)
  | addHeader (key value : String)
  | httpError (msg : String) (status : Nat)
  | findContainer (host id : String)
  | rawLogs (host id : String)
  | copyLogs (tty : Bool)
  | fetchLogs (host id : String) (fro toT : Int) (stdTypes : Nat)
  | writeBody (s : String)
  | flush
  | logError (msg : String)
  | startProducer (host id : String)
deriving DecidableEq, Repr

/-- Modelled from the spec: `utils.RingBuffer` (package `internal/utils`,
not part of the given source). Fixed capacity C; holds the most recently
pushed items oldest-first; once C items are held each further push evicts
exactly the single oldest item. -/
structure RingBuffer (α : Type) where
  capacity : Nat
  data : List α
deriving DecidableEq, Repr

/-- Modelled from the spec: `utils.NewRingBuffer` — an empty buffer of
fixed capacity. -/
def RingBuffer.new (α : Type) (c : Nat) : RingBuffer α := ⟨c, []⟩

/-- Modelled from the spec: `RingBuffer.Push` — O(1); strict FIFO
eviction of the single oldest item once the capacity is reached. -/
def RingBuffer.push {α : Type} (b : RingBuffer α) (x : α) : RingBuffer α :=
  if b.data.length < b.capacity then ⟨b.capacity, b.data ++ [x]⟩
  else ⟨b.capacity, b.data.tail ++ [x]⟩

/-- `json.NewEncoder(w).Encode(event)` for each buffered event: a body
write of the JSON text plus a newline on success, a logged encoding
error on failure (`fetchLogsBetweenDates`, final loop). -/
def encodeAll (encode : LogEvent → Option String) : List LogEvent → List Action
  | [] => []
  | e :: rest =>
    (match encode e with
     | some s => Action.writeBody (s ++ "\n")
     | none => Action.logError "json encoding error while streaming") :: encodeAll encode rest

/-- The tail of `fetchLogsBetweenDates` after the container is found:
call `LogsBetweenDates`, log (only) a fetch error, push every received
event through a capacity-500 ring buffer, then encode the buffer's
contents oldest-first. -/
def rangeFetchActions
    (logsBetween : String → String → Int → Int → Nat → List LogEvent × Option String)
    (encode : LogEvent → Option String)
    (c : Container) (fro toT : Int) (stdTypes : Nat) : List Action :=
  Action.fetchLogs c.host c.id fro toT stdTypes ::
  ((match (logsBetween c.host c.id fro toT stdTypes).2 with
    | some e => [Action.logError ("error while streaming logs " ++ e)]
    | none => []) ++
   encodeAll encode
     (((logsBetween c.host c.id fro toT stdTypes).1).foldl RingBuffer.push
       (RingBuffer.new LogEvent 500)).data)

/-- `handler.fetchLogsBetweenDates`: sets the JSONL content type, parses
`from`/`to` ignoring parse errors (Go's zero time, modelled as 0, is used
when parsing fails), rejects an empty stream-type selection, looks up the
container (404 on failure), then runs the range fetch. -/
def fetchLogsBetweenDates
    (parseTime : String → Option Int)
    (findC : String → String → Except String Container)
    (logsBetween : String → String → Int → Int → Nat → List LogEvent × Option String)
    (encode : LogEvent → Option String)
    (req : Request) : List Action :=
  Action.setHeader "Content-Type" "application/x-jsonl; charset=UTF-8" ::
  if computeStdTypes req.hasStdout req.hasStderr = 0 then
    [Action.httpError "stdout or stderr is required" 400]
  else
    Action.findContainer req.host req.urlParamId ::
    match findC req.host req.urlParamId with
    | Except.error e => [Action.httpError e 404]
    | Except.ok c =>
      rangeFetchActions logsBetween encode c
        ((parseTime req.queryFrom).getD 0) ((parseTime req.queryTo).getD 0)
        (computeStdTypes req.hasStdout req.hasStderr)

/-- `handler.downloadLogs`: container lookup first (400 on failure), then
the download headers chosen by `Accept-Encoding`, then the stream-type
validation, then the raw-log fetch (500 on failure) and the gzip copy
(tty: plain copy; otherwise stdcopy demultiplexing). -/
def downloadLogs
    (findC : String → String → Except String Container)
    (rawLogs : String → String → Nat → Except String Unit)
    (nowFmt : String)
    (req : Request) : List Action :=
  Action.findContainer req.host req.urlParamId ::
  match findC req.host req.urlParamId with
  | Except.error e => [Action.httpError e 400]
  | Except.ok c =>
    (if req.acceptsGzip then
      [Action.setHeader "Content-Disposition"
         ("attachment; filename=" ++ c.name ++ "-" ++ nowFmt ++ ".log"),
       Action.setHeader "Content-Encoding" "gzip",
       Action.setHeader "Content-Type" "application/text"]
     else
      [Action.setHeader "Content-Disposition"
         ("attachment; filename=" ++ c.name ++ "-" ++ nowFmt ++ ".log.gz"),
       Action.setHeader "Content-Type" "application/gzip"]) ++
    if computeStdTypes req.hasStdout req.hasStderr = 0 then
      [Action.httpError "stdout or stderr is required" 400]
    else
      Action.rawLogs c.host c.id ::
      match rawLogs c.host c.id (computeStdTypes req.hasStdout req.hasStderr) with
      | Except.error e => [Action.httpError e 500]
      | Except.ok _ => [Action.copyLogs c.tty]

/-- Outcome of `streamLogsForContainers` before its merge loop: either an
immediate failure trace, or the setup trace after which the loop runs. -/
inductive StreamStart where
  | failed (trace : List Action)
  | started (trace : List Action)
deriving DecidableEq, Repr

/-- The setup phase of `streamLogsForContainers`: the stream-type
validation comes first, then the flusher check, then the SSE headers, a
warning for container-listing errors, and one spawned producer per
existing matching container. -/
def streamLogsForContainers
    (flusherOk : Bool) (existing : List Container) (listErrs : List String)
    (req : Request) : StreamStart :=
  if computeStdTypes req.hasStdout req.hasStderr = 0 then
    StreamStart.failed [Action.httpError "stdout or stderr is required" 400]
  else if flusherOk = false then
    StreamStart.failed [Action.httpError "Streaming unsupported!" 500]
  else
    StreamStart.started
      ([Action.setHeader "Content-Type" "text/event-stream",
        Action.setHeader "Cache-Control" "no-transform",
        Action.addHeader "Cache-Control" "no-cache",
        Action.setHeader "Connection" "keep-alive",
        Action.setHeader "X-Accel-Buffering" "no"] ++
       (if listErrs.isEmpty then [] else [Action.logError "error while listing containers"]) ++
       existing.map (fun c => Action.startProducer c.host c.id))

/-- State of the merge loop in `streamLogsForContainers`: the contents of
the lifecycle `events` channel (sends append, the `events` select case
pops), the set of containers whose producers have been spawned, and the
ordered observable output so far. -/
structure LoopState where
  eventsQueue : List ContainerEvent
  spawned : List Container
  output : List Action
deriving DecidableEq, Repr

/-- One ready `select` alternative of the merge loop: a log event, the
keepalive tick, a new-container notification, or the lifecycle channel
(which can only fire when its queue is nonempty). -/
inductive Sel where
  | selLog (e : LogEvent)
  | selTick
  | selNew (c : Container)
  | selEvents
deriving DecidableEq, Repr

/-- The `case event := <-logs` body: the `data:` line is written only when
`json.Marshal` succeeds (otherwise the error is logged); the `id:` line is
written whenever the timestamp is positive, the blank line always, and the
flush always — independent of the marshal outcome. -/
def handleLogEvent (marshalL : LogEvent → Option String) (e : LogEvent) : List Action :=
  (match marshalL e with
   | none => [Action.logError "json encoding error while streaming"]
   | some buf => [Action.writeBody ("data: " ++ buf ++ "\n")]) ++
  (if 0 < e.timestamp then [Action.writeBody ("id: " ++ toString e.timestamp ++ "\n")] else []) ++
  [Action.writeBody "\n", Action.flush]

/-- The `case event := <-events` body: pop the lifecycle event and, when
`json.Marshal` succeeds, write the `event: container-event` frame and
flush; on failure only log. -/
def handleContainerEvent (marshalC : ContainerEvent → Option String)
    (ev : ContainerEvent) : List Action :=
  match marshalC ev with
  | none => [Action.logError "json encoding error while streaming"]
  | some buf => [Action.writeBody ("event: container-event\ndata: " ++ buf ++ "\n\n"), Action.flush]

/-- One iteration of the merge loop's `select`, as a function of which
alternative fired. `selNew c` enqueues a `container-started` lifecycle
event on the `events` channel and spawns the container's producer in the
same iteration; the frame for it is only written when `selEvents` later
pops it. -/
def stepLoop (marshalL : LogEvent → Option String)
    (marshalC : ContainerEvent → Option String)
    (st : LoopState) : Sel → LoopState
  | Sel.selLog e => { st with output := st.output ++ handleLogEvent marshalL e }
  | Sel.selTick => { st with output := st.output ++ [Action.writeBody ":ping \n\n", Action.flush] }
  | Sel.selNew c =>
    { st with
      eventsQueue := st.eventsQueue ++ [⟨c.id, "container-started", c.host⟩],
      spawned := st.spawned ++ [c],
      output := st.output ++ [Action.startProducer c.host c.id] }
  | Sel.selEvents =>
    match st.eventsQueue with
    | [] => st
    | ev :: rest =>
      { st with eventsQueue := rest, output := st.output ++ handleContainerEvent marshalC ev }

/-- Running the merge loop over a schedule of fired alternatives. -/
def runLoop (marshalL : LogEvent → Option String)
    (marshalC : ContainerEvent → Option String)
    (st : LoopState) (sched : List Sel) : LoopState :=
  sched.foldl (stepLoop marshalL marshalC) st

/-- Whether an alternative can actually fire in a state: a log event only
arrives from a spawned producer's container, and the lifecycle channel
only fires when nonempty. -/
def validSel (st : LoopState) : Sel → Bool
  | Sel.selLog e => st.spawned.any (fun c => c.id == e.containerId && c.host == e.host)
  | Sel.selEvents => !st.eventsQueue.isEmpty
  | _ => true

/-- A schedule every step of which can fire. -/
def validRun (marshalL : LogEvent → Option String)
    (marshalC : ContainerEvent → Option String)
    (st : LoopState) : List Sel → Bool
  | [] => true
  | s :: rest => validSel st s && validRun marshalL marshalC (stepLoop marshalL marshalC st s) rest

/-- How a producer's `StreamLogs` call ends: natural end-of-stream
(`io.EOF`), context cancellation, or any other error. -/
inductive StreamEnd where
  | eof
  | canceled
  | failure (msg : String)
deriving DecidableEq, Repr

/-- One emission of a producer task, in order: a log event sent to the
shared `logs` channel, a lifecycle event sent to the `events` channel, or
a process-log diagnostic (not client-visible). -/
inductive Emission where
  | logEv (e : LogEvent)
  | lifecycle (ev : ContainerEvent)
  | logged (msg : String)
deriving DecidableEq, Repr

/-- The `streamLogs` producer closure of `streamLogsForContainers`: find
the container (log and exit on failure); stream log events until the
stream ends; on `io.EOF` log a debug line and emit one `container-stopped`
lifecycle event; on cancellation exit silently; on any other error log it
and exit with no client-visible emission. The returned list is everything
the task emits before exiting — it is never restarted. -/
def streamLogs
    (findC : String → String → Except String Container)
    (delivered : List LogEvent) (ending : StreamEnd)
    (container : Container) : List Emission :=
  match findC container.host container.id with
  | Except.error e => [Emission.logged ("error while finding container " ++ e)]
  | Except.ok _ =>
    delivered.map Emission.logEv ++
    match ending with
    | StreamEnd.eof =>
      [Emission.logged ("stream closed for container " ++ container.name),
       Emission.lifecycle ⟨container.id, "container-stopped", container.host⟩]
    | StreamEnd.canceled => []
    | StreamEnd.failure msg => [Emission.logged ("unknown error while streaming " ++ msg)]

/-- Emission filter: is this a lifecycle event at all? -/
def isLifecycleEmission : Emission → Bool
  | Emission.lifecycle _ => true
  | _ => false

/-- Emission filter: is this a `container-stopped` lifecycle event? -/
def isStoppedEmission : Emission → Bool
  | Emission.lifecycle ev => ev.name == "container-stopped"
  | _ => false

/-- The filter of `streamContainerLogs`: a single container id on the
request's host; no state condition. -/
def streamContainerLogsFilter (id host : String) (c : Container) : Bool :=
  c.id == id && c.host == host

/-- The filter of `streamLogsMerged`: membership in the requested id set
on the request's host; no state condition. -/
def streamLogsMergedFilter (ids : List String) (host : String) (c : Container) : Bool :=
  ids.contains c.id && c.host == host

/-- The filter of `streamServiceLogs`: running state and a matching swarm
service-name label. -/
def streamServiceLogsFilter (service : String) (c : Container) : Bool :=
  c.state == "running" && getLabel c.labels "com.docker.swarm.service.name" == service

/-- The filter of `streamGroupedLogs`: running state and a matching
compose group. -/
def streamGroupedLogsFilter (group : String) (c : Container) : Bool :=
  c.state == "running" && c.group == group

/-- The filter of `streamStackLogs`: running state and a matching stack
namespace label. -/
def streamStackLogsFilter (stack : String) (c : Container) : Bool :=
  c.state == "running" && getLabel c.labels "com.docker.stack.namespace" == stack

/-- Action classifier: an `http.Error` response. -/
def isHttpError : Action → Bool
  | Action.httpError _ _ => true
  | _ => false

/-- Action classifier: work a handler performs beyond validation and
headers — collaborator calls, body writes, producer spawns. -/
def isWorkAction : Action → Bool
  | Action.rawLogs _ _ => true
  | Action.copyLogs _ => true
  | Action.fetchLogs _ _ _ _ _ => true
  | Action.writeBody _ => true
  | Action.startProducer _ _ => true
  | _ => false

/-- Does the trace end in a client (4xx) error response? -/
def endsWithClientError (tr : List Action) : Bool :=
  match tr.getLast? with
  | some (Action.httpError _ status) => status == 400
  | _ => false

/-- The body writes of a trace, in order. -/
def bodyWrites : List Action → List String
  | [] => []
  | Action.writeBody s :: rest => s :: bodyWrites rest
  | _ :: rest => bodyWrites rest

/-- Index of the first occurrence of an action in a trace (trace length
when absent). -/
def firstIndexOf (a : Action) : List Action → Nat
  | [] => 0
  | b :: rest => if b = a then 0 else firstIndexOf a rest + 1

/-- A concrete running container used in witnesses and counterexamples. -/
def cRun : Container :=
  ⟨"c1", "localhost", "web", "running", [("com.docker.swarm.service.name", "svc")], "g1", false⟩

/-- The same container after it exited. -/
def cExited : Container :=
  ⟨"c1", "localhost", "web", "exited", [("com.docker.swarm.service.name", "svc")], "g1", false⟩

/-- A concrete log event of `cRun` with a positive timestamp. -/
def e0 : LogEvent := ⟨"c1", "localhost", 5, "hello"⟩

/-- A concrete stand-in for `json.Marshal` on log events that always
succeeds, returning the message text. -/
def fmW : LogEvent → Option String := fun e => some e.message

/-- A concrete stand-in for `json.Marshal` on lifecycle events that
always succeeds, returning the event name. -/
def fcW : ContainerEvent → Option String := fun ev => some ev.name

/-- A concrete stand-in for `json.Marshal` that always fails. -/
def marshalFail : LogEvent → Option String := fun _ => none

/-- The merge-loop state at session start with no existing containers. -/
def st0 : LoopState := ⟨[], [], []⟩

/-- A schedule in which a mid-session container start is followed by one
of its log events before the lifecycle channel is drained. -/
def c9sched : List Sel := [Sel.selNew cRun, Sel.selLog e0, Sel.selEvents]

/-- The output delivered by that schedule. -/
def c9out : List Action := (runLoop fmW fcW st0 c9sched).output

/-- A concrete time parser that fails on every input. -/
def parseNone : String → Option Int := fun _ => none

/-- A request with neither `stdout` nor `stderr` selected. -/
def reqNoStd : Request := ⟨"c1", false, false, "", "", true, "localhost"⟩

/-- A request selecting `stdout` whose `from`/`to` values do not parse. -/
def reqBadTimes : Request := ⟨"c1", true, false, "not-a-timestamp", "also-bad", false, "localhost"⟩

/-- A registry lookup that always finds `cRun`. -/
def findOk : String → String → Except String Container := fun _ _ => Except.ok cRun

/-- A raw-log fetch that always succeeds. -/
def rawOk : String → String → Nat → Except String Unit := fun _ _ _ => Except.ok ()

/-- A historical fetch returning one event and no error. -/
def logsB1 : String → String → Int → Int → Nat → List LogEvent × Option String :=
  fun _ _ _ _ _ => ([e0], none)

/-- A concrete total JSON encoder stand-in. -/
def encMsg : LogEvent → Option String := fun e => some e.message

/-! ## Helper lemmas -/

theorem RingBuffer.push_foldl {α : Type} (C : Nat) (hC : 1 ≤ C) (xs : List α) :
    ∀ b : RingBuffer α, b.capacity = C → b.data.length ≤ C →
      (xs.foldl RingBuffer.push b).data
        = (b.data ++ xs).drop (b.data.length + xs.length - C) := by
  induction xs with
  | nil =>
    intro b hcap hlen
    simp only [List.foldl_nil, List.append_nil, List.length_nil, Nat.add_zero]
    rw [Nat.sub_eq_zero_of_le hlen, List.drop_zero]
  | cons x xs ih =>
    intro b hcap hlen
    rw [List.foldl_cons]
    by_cases h : b.data.length < b.capacity
    · have hpush : RingBuffer.push b x = ⟨b.capacity, b.data ++ [x]⟩ := by
        simp [RingBuffer.push, h]
      rw [hpush]
      have hres := ih ⟨b.capacity, b.data ++ [x]⟩ hcap
        (by simp only [List.length_append, List.length_cons, List.length_nil]; omega)
      simp only [List.length_append, List.length_cons, List.length_nil] at hres
      rw [hres]
      have harith : b.data.length + (0 + 1) + xs.length - C
          = b.data.length + (x :: xs).length - C := by
        simp only [List.length_cons]; omega
      rw [List.append_assoc, List.singleton_append, harith]
    · have hfull : b.data.length = C := by omega
      have hne : b.data ≠ [] := by
        intro hnil
        rw [hnil] at hfull
        simp at hfull
        omega
      obtain ⟨a, t, hdt⟩ := List.exists_cons_of_ne_nil hne
      have hpush : RingBuffer.push b x = ⟨b.capacity, b.data.tail ++ [x]⟩ := by
        simp [RingBuffer.push, h]
      rw [hpush, hdt]
      simp only [List.tail_cons]
      have hlt : t.length + 1 = C := by
        rw [hdt] at hfull
        simpa using hfull
      have hres := ih ⟨b.capacity, t ++ [x]⟩ hcap
        (by simp only [List.length_append, List.length_cons, List.length_nil]; omega)
      simp only [List.length_append, List.length_cons, List.length_nil] at hres
      rw [hres]
      have hidx1 : t.length + (0 + 1) + xs.length - C = xs.length := by omega
      have hidx2 : (a :: t).length + (x :: xs).length - C = xs.length + 1 := by
        simp only [List.length_cons]; omega
      rw [hidx1, hidx2]
      simp only [List.cons_append, List.drop_succ_cons, List.append_assoc,
        List.singleton_append, List.nil_append]

theorem RingBuffer.new_foldl_data {α : Type} (C : Nat) (hC : 1 ≤ C) (xs : List α) :
    (xs.foldl RingBuffer.push (RingBuffer.new α C)).data = xs.drop (xs.length - C) := by
  have h := RingBuffer.push_foldl C hC xs (RingBuffer.new α C) rfl (by simp [RingBuffer.new])
  simpa [RingBuffer.new] using h

theorem encodeAll_total (f : LogEvent → String) (l : List LogEvent) :
    encodeAll (fun e => some (f e)) l = l.map (fun e => Action.writeBody (f e ++ "\n")) := by
  induction l with
  | nil => rfl
  | cons e rest ih => simp [encodeAll, ih]

theorem bodyWrites_map_writeBody (f : LogEvent → String) (l : List LogEvent) :
    bodyWrites (l.map (fun e => Action.writeBody (f e))) = l.map f := by
  induction l with
  | nil => rfl
  | cons e rest ih => simp [bodyWrites, ih]

theorem encodeAll_no_httpError (enc : LogEvent → Option String) (l : List LogEvent) :
    (encodeAll enc l).all (fun a => !isHttpError a) = true := by
  induction l with
  | nil => rfl
  | cons e rest ih =>
    cases h : enc e with
    | none =>
      simp only [encodeAll, h, List.all_cons, ih]
      rfl
    | some s =>
      simp only [encodeAll, h, List.all_cons, ih]
      rfl

theorem rangeFetchActions_no_httpError
    (logsBetween : String → String → Int → Int → Nat → List LogEvent × Option String)
    (enc : LogEvent → Option String) (c : Container) (fro toT : Int) (stdTypes : Nat) :
    (rangeFetchActions logsBetween enc c fro toT stdTypes).all (fun a => !isHttpError a) = true := by
  unfold rangeFetchActions
  cases h : (logsBetween c.host c.id fro toT stdTypes).2 with
  | none =>
    simp only [h, List.nil_append, List.all_cons, encodeAll_no_httpError]
    rfl
  | some e =>
    simp only [h, List.singleton_append, List.all_cons, encodeAll_no_httpError]
    rfl

theorem bodyWrites_append (l₁ l₂ : List Action) :
    bodyWrites (l₁ ++ l₂) = bodyWrites l₁ ++ bodyWrites l₂ := by
  induction l₁ with
  | nil => rfl
  | cons a rest ih =>
    cases a <;> simp [bodyWrites, ih]

theorem getLast?_append_two {α : Type} (l : List α) (a b : α) :
    (l ++ [a, b]).getLast? = some b := by
  have h : l ++ [a, b] = (l ++ [a]) ++ [b] := by simp
  rw [h, List.getLast?_concat]

/-! ## C1 -/

/-- Claim C1: for a range-export request whose time range matches the
received event list, the response body is newline-delimited JSON of
exactly the `min(N, 500)` most-recent events in range, oldest-to-newest,
and dropped earlier events produce no error response. -/
theorem c1_range_export_truncates
    (pt : String → Option Int) (events : List LogEvent) (c : Container)
    (enc : LogEvent → String) (req : Request)
    (hsel : computeStdTypes req.hasStdout req.hasStderr ≠ 0) :
    bodyWrites (fetchLogsBetweenDates pt (fun _ _ => Except.ok c)
        (fun _ _ _ _ _ => (events, none)) (fun e => some (enc e)) req)
      = (events.drop (events.length - 500)).map (fun e => enc e ++ "\n")
    ∧ (events.drop (events.length - 500)).length = min events.length 500
    ∧ (fetchLogsBetweenDates pt (fun _ _ => Except.ok c)
        (fun _ _ _ _ _ => (events, none)) (fun e => some (enc e)) req).all
        (fun a => !isHttpError a) = true := by
  have htrace : fetchLogsBetweenDates pt (fun _ _ => Except.ok c)
      (fun _ _ _ _ _ => (events, none)) (fun e => some (enc e)) req
      = Action.setHeader "Content-Type" "application/x-jsonl; charset=UTF-8"
        :: Action.findContainer req.host req.urlParamId
        :: rangeFetchActions (fun _ _ _ _ _ => (events, none)) (fun e => some (enc e)) c
             ((pt req.queryFrom).getD 0) ((pt req.queryTo).getD 0)
             (computeStdTypes req.hasStdout req.hasStderr) := by
    unfold fetchLogsBetweenDates
    rw [if_neg hsel]
  have hdata : ((events.foldl RingBuffer.push (RingBuffer.new LogEvent 500)).data)
      = events.drop (events.length - 500) :=
    RingBuffer.new_foldl_data 500 (by omega) events
  refine ⟨?_, ?_, ?_⟩
  · rw [htrace]
    unfold rangeFetchActions
    simp only [bodyWrites, List.nil_append, hdata, encodeAll_total,
      bodyWrites_map_writeBody]
  · rw [List.length_drop]
    omega
  · rw [htrace]
    simp only [List.all_cons, rangeFetchActions_no_httpError]
    rfl

/-- Witness for C1 at a concrete request with one received event. -/
theorem c1_range_export_truncates_witness :
    computeStdTypes reqBadTimes.hasStdout reqBadTimes.hasStderr ≠ 0
    ∧ (bodyWrites (fetchLogsBetweenDates parseNone (fun _ _ => Except.ok cRun)
          (fun _ _ _ _ _ => ([e0], none)) (fun e => some (e.message)) reqBadTimes)
        = ([e0].drop ([e0].length - 500)).map (fun e => e.message ++ "\n")
      ∧ ([e0].drop ([e0].length - 500)).length = min [e0].length 500
      ∧ (fetchLogsBetweenDates parseNone (fun _ _ => Except.ok cRun)
          (fun _ _ _ _ _ => ([e0], none)) (fun e => some (e.message)) reqBadTimes).all
          (fun a => !isHttpError a) = true) :=
  ⟨by decide,
   c1_range_export_truncates parseNone [e0] cRun (fun e => e.message) reqBadTimes (by decide)⟩

/-! ## C2 -/

/-- Claim C2 counterexample: a download request selecting neither stdout
nor stderr still performs the container lookup and sets the download
headers before the validation check, contradicting the claim that no
container lookup is made and no headers beyond the error are produced. -/
theorem c2_counterexample :
    reqNoStd.hasStdout = false ∧ reqNoStd.hasStderr = false
    ∧ Action.findContainer "localhost" "c1" ∈ downloadLogs findOk rawOk "t" reqNoStd
    ∧ Action.setHeader "Content-Encoding" "gzip" ∈ downloadLogs findOk rawOk "t" reqNoStd := by
  decide

/-- Claim C2 (amended): with neither stdout nor stderr selected, every
handler fails with the validation error and starts no producer, fetch or
body write; the streaming handler does so before any other action, the
range-export handler first sets its content type, and the download
handler first performs the container lookup and sets the download
headers. -/
theorem c2_missing_selection_rejected
    (req : Request)
    (findC : String → String → Except String Container)
    (rawLogs : String → String → Nat → Except String Unit) (nowFmt : String)
    (pt : String → Option Int)
    (logsBetween : String → String → Int → Int → Nat → List LogEvent × Option String)
    (enc : LogEvent → Option String)
    (flusherOk : Bool) (existing : List Container) (listErrs : List String)
    (h1 : req.hasStdout = false) (h2 : req.hasStderr = false) :
    streamLogsForContainers flusherOk existing listErrs req
      = StreamStart.failed [Action.httpError "stdout or stderr is required" 400]
    ∧ fetchLogsBetweenDates pt findC logsBetween enc req
      = [Action.setHeader "Content-Type" "application/x-jsonl; charset=UTF-8",
         Action.httpError "stdout or stderr is required" 400]
    ∧ (downloadLogs findC rawLogs nowFmt req).all (fun a => !isWorkAction a) = true
    ∧ endsWithClientError (downloadLogs findC rawLogs nowFmt req) = true := by
  have hstd : computeStdTypes req.hasStdout req.hasStderr = 0 := by
    rw [h1, h2]; rfl
  refine ⟨?_, ?_, ?_, ?_⟩
  · unfold streamLogsForContainers
    rw [if_pos hstd]
  · unfold fetchLogsBetweenDates
    rw [if_pos hstd]
  · unfold downloadLogs
    rw [hstd]
    cases hf : findC req.host req.urlParamId with
    | error e => rfl
    | ok c =>
      cases hg : req.acceptsGzip <;> rfl
  · unfold downloadLogs
    rw [hstd]
    cases hf : findC req.host req.urlParamId with
    | error e => rfl
    | ok c =>
      cases hg : req.acceptsGzip <;> rfl

/-- Witness for C2 (amended) at a concrete selection-free request. -/
theorem c2_missing_selection_rejected_witness :
    reqNoStd.hasStdout = false
    ∧ (streamLogsForContainers true [cRun] [] reqNoStd
        = StreamStart.failed [Action.httpError "stdout or stderr is required" 400]
      ∧ fetchLogsBetweenDates parseNone findOk logsB1 encMsg reqNoStd
        = [Action.setHeader "Content-Type" "application/x-jsonl; charset=UTF-8",
           Action.httpError "stdout or stderr is required" 400]
      ∧ (downloadLogs findOk rawOk "t" reqNoStd).all (fun a => !isWorkAction a) = true
      ∧ endsWithClientError (downloadLogs findOk rawOk "t" reqNoStd) = true) :=
  ⟨rfl,
   c2_missing_selection_rejected reqNoStd findOk rawOk "t" parseNone logsB1 encMsg
     true [cRun] [] rfl rfl⟩

/-! ## C3 -/

/-- Claim C3 counterexample: a range-export request whose `from` value
does not parse is not rejected — the historical fetch still happens and
no HTTP error is produced. -/
theorem c3_counterexample :
    parseNone reqBadTimes.queryFrom = none
    ∧ Action.fetchLogs "localhost" "c1" 0 0 1
        ∈ fetchLogsBetweenDates parseNone findOk logsB1 encMsg reqBadTimes
    ∧ (fetchLogsBetweenDates parseNone findOk logsB1 encMsg reqBadTimes).all
        (fun a => !isHttpError a) = true := by
  decide

/-- Claim C3 (amended): a missing or unparsable `from` value is silently
ignored — the Go zero time (modelled as 0) is substituted, the request
proceeds through container lookup and log fetch, and no client error is
surfaced. -/
theorem c3_invalid_time_ignored
    (pt : String → Option Int)
    (findC : String → String → Except String Container)
    (logsBetween : String → String → Int → Int → Nat → List LogEvent × Option String)
    (enc : LogEvent → Option String) (req : Request) (c : Container)
    (hsel : computeStdTypes req.hasStdout req.hasStderr ≠ 0)
    (hfind : findC req.host req.urlParamId = Except.ok c)
    (hfrom : pt req.queryFrom = none) :
    fetchLogsBetweenDates pt findC logsBetween enc req
      = Action.setHeader "Content-Type" "application/x-jsonl; charset=UTF-8"
        :: Action.findContainer req.host req.urlParamId
        :: rangeFetchActions logsBetween enc c 0 ((pt req.queryTo).getD 0)
             (computeStdTypes req.hasStdout req.hasStderr)
    ∧ Action.fetchLogs c.host c.id 0 ((pt req.queryTo).getD 0)
        (computeStdTypes req.hasStdout req.hasStderr)
        ∈ fetchLogsBetweenDates pt findC logsBetween enc req
    ∧ (fetchLogsBetweenDates pt findC logsBetween enc req).all
        (fun a => !isHttpError a) = true := by
  have htrace : fetchLogsBetweenDates pt findC logsBetween enc req
      = Action.setHeader "Content-Type" "application/x-jsonl; charset=UTF-8"
        :: Action.findContainer req.host req.urlParamId
        :: rangeFetchActions logsBetween enc c 0 ((pt req.queryTo).getD 0)
             (computeStdTypes req.hasStdout req.hasStderr) := by
    unfold fetchLogsBetweenDates
    rw [if_neg hsel, hfind, hfrom]
    rfl
  refine ⟨htrace, ?_, ?_⟩
  · rw [htrace]
    unfold rangeFetchActions
    simp [List.mem_cons]
  · rw [htrace]
    simp only [List.all_cons, rangeFetchActions_no_httpError]
    rfl

/-- Witness for C3 (amended) at a concrete unparsable request. -/
theorem c3_invalid_time_ignored_witness :
    computeStdTypes reqBadTimes.hasStdout reqBadTimes.hasStderr ≠ 0
    ∧ findOk reqBadTimes.host reqBadTimes.urlParamId = Except.ok cRun
    ∧ parseNone reqBadTimes.queryFrom = none
    ∧ (fetchLogsBetweenDates parseNone findOk logsB1 encMsg reqBadTimes
        = Action.setHeader "Content-Type" "application/x-jsonl; charset=UTF-8"
          :: Action.findContainer reqBadTimes.host reqBadTimes.urlParamId
          :: rangeFetchActions logsB1 encMsg cRun 0 ((parseNone reqBadTimes.queryTo).getD 0)
               (computeStdTypes reqBadTimes.hasStdout reqBadTimes.hasStderr)
      ∧ Action.fetchLogs cRun.host cRun.id 0 ((parseNone reqBadTimes.queryTo).getD 0)
          (computeStdTypes reqBadTimes.hasStdout reqBadTimes.hasStderr)
          ∈ fetchLogsBetweenDates parseNone findOk logsB1 encMsg reqBadTimes
      ∧ (fetchLogsBetweenDates parseNone findOk logsB1 encMsg reqBadTimes).all
          (fun a => !isHttpError a) = true) :=
  ⟨by decide, rfl, rfl,
   c3_invalid_time_ignored parseNone findOk logsB1 encMsg reqBadTimes cRun
     (by decide) rfl rfl⟩

/-! ## C4 -/

theorem handleLogEvent_getLast (m : LogEvent → Option String) (e : LogEvent) :
    (handleLogEvent m e).getLast? = some Action.flush := by
  unfold handleLogEvent
  by_cases ht : 0 < e.timestamp
  · rw [if_pos ht]
    cases m e <;> rfl
  · rw [if_neg ht]
    cases m e <;> rfl

theorem getLast?_append_ne_nil {α : Type} (l₁ l₂ : List α) (h : l₂ ≠ []) :
    (l₁ ++ l₂).getLast? = l₂.getLast? := by
  induction l₁ with
  | nil => rfl
  | cons a rest ih =>
    cases hr : rest ++ l₂ with
    | nil =>
      rcases List.append_eq_nil.mp hr with ⟨-, h2⟩
      exact absurd h2 h
    | cons b t =>
      rw [List.cons_append, hr, List.getLast?_cons_cons, ← hr, ih]

/-- Claim C4: for every log event the merge loop consumes whose JSON
serialization succeeds, the frame written is the `data:` line with the
JSON encoding and a newline, then the `id:` line with the timestamp if
and only if the timestamp is strictly positive, then a blank line, and
the frame ends in an immediate flush. -/
theorem c4_log_frame_format
    (marshalL : LogEvent → Option String) (marshalC : ContainerEvent → Option String)
    (st : LoopState) (e : LogEvent) (buf : String)
    (hbuf : marshalL e = some buf) :
    (stepLoop marshalL marshalC st (Sel.selLog e)).output
      = st.output ++
          ([Action.writeBody ("data: " ++ buf ++ "\n")] ++
           (if 0 < e.timestamp then
              [Action.writeBody ("id: " ++ toString e.timestamp ++ "\n")]
            else []) ++
           [Action.writeBody "\n", Action.flush])
    ∧ ((stepLoop marshalL marshalC st (Sel.selLog e)).output).getLast? = some Action.flush := by
  have hframe : handleLogEvent marshalL e
      = [Action.writeBody ("data: " ++ buf ++ "\n")] ++
        (if 0 < e.timestamp then
           [Action.writeBody ("id: " ++ toString e.timestamp ++ "\n")]
         else []) ++
        [Action.writeBody "\n", Action.flush] := by
    unfold handleLogEvent
    rw [hbuf]
  have hne : handleLogEvent marshalL e ≠ [] := by
    intro h0
    have := handleLogEvent_getLast marshalL e
    rw [h0] at this
    exact Option.noConfusion this
  constructor
  · show st.output ++ handleLogEvent marshalL e = _
    rw [hframe]
  · show (st.output ++ handleLogEvent marshalL e).getLast? = _
    rw [getLast?_append_ne_nil _ _ hne, handleLogEvent_getLast]

/-- Witness for C4 at a concrete event with positive timestamp. -/
theorem c4_log_frame_format_witness :
    fmW e0 = some "hello"
    ∧ ((stepLoop fmW fcW st0 (Sel.selLog e0)).output
        = st0.output ++
            ([Action.writeBody ("data: " ++ "hello" ++ "\n")] ++
             (if 0 < e0.timestamp then
                [Action.writeBody ("id: " ++ toString e0.timestamp ++ "\n")]
              else []) ++
             [Action.writeBody "\n", Action.flush])
      ∧ ((stepLoop fmW fcW st0 (Sel.selLog e0)).output).getLast? = some Action.flush) :=
  ⟨rfl, c4_log_frame_format fmW fcW st0 e0 "hello" rfl⟩

/-! ## C5 -/

/-- Claim C5 counterexample: when serialization of an event with a
positive timestamp fails, the `id:` line and the terminating blank line
still reach the transport, contradicting the claim that the whole frame
is skipped. -/
theorem c5_counterexample :
    marshalFail e0 = none
    ∧ Action.writeBody "id: 5\n" ∈ (stepLoop marshalFail fcW st0 (Sel.selLog e0)).output
    ∧ Action.writeBody "\n" ∈ (stepLoop marshalFail fcW st0 (Sel.selLog e0)).output := by
  decide

/-- Claim C5 (amended): when JSON serialization of an event fails in the
merge loop, the error is logged and only the `data:` line is skipped —
the `id:` line (when the timestamp is positive) and the terminating
blank line are still written and the frame is still flushed; the loop
body completes normally and continues with subsequent events. -/
theorem c5_encoding_failure_partial_frame
    (marshalL : LogEvent → Option String) (marshalC : ContainerEvent → Option String)
    (st : LoopState) (e : LogEvent)
    (hfail : marshalL e = none) :
    (stepLoop marshalL marshalC st (Sel.selLog e)).output
      = st.output ++
          ([Action.logError "json encoding error while streaming"] ++
           (if 0 < e.timestamp then
              [Action.writeBody ("id: " ++ toString e.timestamp ++ "\n")]
            else []) ++
           [Action.writeBody "\n", Action.flush]) := by
  show st.output ++ handleLogEvent marshalL e = _
  unfold handleLogEvent
  rw [hfail]

/-- Witness for C5 (amended) at a concrete failing encoder. -/
theorem c5_encoding_failure_partial_frame_witness :
    marshalFail e0 = none
    ∧ (stepLoop marshalFail fcW st0 (Sel.selLog e0)).output
        = st0.output ++
            ([Action.logError "json encoding error while streaming"] ++
             (if 0 < e0.timestamp then
                [Action.writeBody ("id: " ++ toString e0.timestamp ++ "\n")]
              else []) ++
             [Action.writeBody "\n", Action.flush]) :=
  ⟨rfl, c5_encoding_failure_partial_frame marshalFail fcW st0 e0 rfl⟩

/-! ## C6 -/

theorem filter_stopped_map_logEv (l : List LogEvent) :
    (l.map Emission.logEv).filter isStoppedEmission = [] := by
  induction l with
  | nil => rfl
  | cons e rest ih => simp [List.filter_cons, isStoppedEmission, ih]

theorem filter_lifecycle_map_logEv (l : List LogEvent) :
    (l.map Emission.logEv).filter isLifecycleEmission = [] := by
  induction l with
  | nil => rfl
  | cons e rest ih => simp [List.filter_cons, isLifecycleEmission, ih]

/-- Claim C6: a producer whose stream ends with natural end-of-stream
emits exactly one `container-stopped` lifecycle event for its container
and host, that event is the producer's final emission (so no log event
of the producer follows it), and the emission list is complete — the
task exits without restart. -/
theorem c6_eof_single_stopped
    (findC : String → String → Except String Container)
    (delivered : List LogEvent) (c c' : Container)
    (hfind : findC c.host c.id = Except.ok c') :
    (streamLogs findC delivered StreamEnd.eof c).filter isStoppedEmission
      = [Emission.lifecycle ⟨c.id, "container-stopped", c.host⟩]
    ∧ (streamLogs findC delivered StreamEnd.eof c).getLast?
      = some (Emission.lifecycle ⟨c.id, "container-stopped", c.host⟩) := by
  unfold streamLogs
  rw [hfind]
  constructor
  · rw [List.filter_append, filter_stopped_map_logEv]
    simp [List.filter_cons, isStoppedEmission]
  · exact getLast?_append_two _ _ _

/-- Witness for C6 at a concrete producer run. -/
theorem c6_eof_single_stopped_witness :
    findOk cRun.host cRun.id = Except.ok cRun
    ∧ ((streamLogs findOk [e0] StreamEnd.eof cRun).filter isStoppedEmission
        = [Emission.lifecycle ⟨cRun.id, "container-stopped", cRun.host⟩]
      ∧ (streamLogs findOk [e0] StreamEnd.eof cRun).getLast?
        = some (Emission.lifecycle ⟨cRun.id, "container-stopped", cRun.host⟩)) :=
  ⟨rfl, c6_eof_single_stopped findOk [e0] cRun cRun rfl⟩

/-! ## C7 -/

/-- Claim C7: a producer hitting an error other than end-of-stream or
cancellation logs the error and exits with no client-visible emission —
after the events already delivered while the stream was live, it emits
only a diagnostic log line and no lifecycle event of any kind; the
multiplexer is untouched and the container's stream is simply lost. -/
theorem c7_failure_exits_silently
    (findC : String → String → Except String Container)
    (delivered : List LogEvent) (c c' : Container) (msg : String)
    (hfind : findC c.host c.id = Except.ok c') :
    streamLogs findC delivered (StreamEnd.failure msg) c
      = delivered.map Emission.logEv
        ++ [Emission.logged ("unknown error while streaming " ++ msg)]
    ∧ (streamLogs findC delivered (StreamEnd.failure msg) c).filter isLifecycleEmission = [] := by
  unfold streamLogs
  rw [hfind]
  constructor
  · rfl
  · rw [List.filter_append, filter_lifecycle_map_logEv]
    simp [List.filter_cons, isLifecycleEmission]

/-- Witness for C7 at a concrete failing producer run. -/
theorem c7_failure_exits_silently_witness :
    findOk cRun.host cRun.id = Except.ok cRun
    ∧ (streamLogs findOk [e0] (StreamEnd.failure "boom") cRun
        = [e0].map Emission.logEv
          ++ [Emission.logged ("unknown error while streaming " ++ "boom")]
      ∧ (streamLogs findOk [e0] (StreamEnd.failure "boom") cRun).filter
          isLifecycleEmission = []) :=
  ⟨rfl, c7_failure_exits_silently findOk [e0] cRun cRun "boom" rfl⟩

/-! ## C8 -/

/-- Claim C8 counterexample: the id-set filter of `streamLogsMerged`
accepts a container that is not running, contradicting the claim that
every variant except the single-id one requires running state. -/
theorem c8_counterexample :
    streamLogsMergedFilter ["c1"] "localhost" cExited = true
    ∧ cExited.state ≠ "running" := by
  decide

/-- Claim C8 (amended): the service-label, compose-group-label and
stack-namespace-label filter variants accept a container only if its
state is running; the single-id and id-set variants are insensitive to
state and accept regardless of it. -/
theorem c8_filters_state_requirements
    (c : Container) (service group stack id host st' : String) (ids : List String) :
    (streamServiceLogsFilter service c = true → c.state = "running")
    ∧ (streamGroupedLogsFilter group c = true → c.state = "running")
    ∧ (streamStackLogsFilter stack c = true → c.state = "running")
    ∧ streamContainerLogsFilter id host { c with state := st' }
        = streamContainerLogsFilter id host c
    ∧ streamLogsMergedFilter ids host { c with state := st' }
        = streamLogsMergedFilter ids host c := by
  refine ⟨?_, ?_, ?_, rfl, rfl⟩
  · intro h
    simp only [streamServiceLogsFilter, Bool.and_eq_true, beq_iff_eq] at h
    exact h.1
  · intro h
    simp only [streamGroupedLogsFilter, Bool.and_eq_true, beq_iff_eq] at h
    exact h.1
  · intro h
    simp only [streamStackLogsFilter, Bool.and_eq_true, beq_iff_eq] at h
    exact h.1

/-- Witness for C8 (amended) at a concrete running container. -/
theorem c8_filters_state_requirements_witness :
    streamServiceLogsFilter "svc" cRun = true ∧ cRun.state = "running" :=
  ⟨by decide,
   (c8_filters_state_requirements cRun "svc" "g1" "stk" "c1" "localhost" "exited"
     ["c1"]).1 (by decide)⟩

/-! ## C9 -/

/-- Claim C9 counterexample: a valid merge-loop execution in which a
container starting mid-session has one of its log events delivered
before its container-started frame — the started event is only enqueued
when the notification arrives, while the producer is spawned at once, so
the started frame does not precede every log event of the container. -/
theorem c9_counterexample :
    validRun fmW fcW st0 c9sched = true
    ∧ Action.writeBody "event: container-event\ndata: container-started\n\n" ∈ c9out
    ∧ firstIndexOf (Action.writeBody "data: hello\n") c9out
        < firstIndexOf
            (Action.writeBody "event: container-event\ndata: container-started\n\n") c9out := by
  decide

/-- Claim C9 (amended): when a matching container starts mid-session,
the merge-loop iteration handling the notification enqueues exactly one
container-started lifecycle event and spawns the container's producer in
that same iteration, writing no frame itself; the started frame is
written only when a later iteration drains the lifecycle channel, so log
events of the new container may be delivered before it. -/
theorem c9_started_enqueued_then_framed
    (marshalL : LogEvent → Option String) (marshalC : ContainerEvent → Option String)
    (st : LoopState) (c : Container)
    (q : List ContainerEvent) (sp : List Container) (out : List Action) :
    stepLoop marshalL marshalC st (Sel.selNew c)
      = ⟨st.eventsQueue ++ [⟨c.id, "container-started", c.host⟩],
         st.spawned ++ [c],
         st.output ++ [Action.startProducer c.host c.id]⟩
    ∧ bodyWrites ((stepLoop marshalL marshalC st (Sel.selNew c)).output)
        = bodyWrites st.output
    ∧ stepLoop marshalL marshalC ⟨⟨c.id, "container-started", c.host⟩ :: q, sp, out⟩
        Sel.selEvents
      = ⟨q, sp, out ++ handleContainerEvent marshalC ⟨c.id, "container-started", c.host⟩⟩ := by
  refine ⟨rfl, ?_, rfl⟩
  show bodyWrites (st.output ++ [Action.startProducer c.host c.id]) = bodyWrites st.output
  rw [bodyWrites_append]
  simp [bodyWrites]

/-! ## C10 -/

set_option maxRecDepth 4000 in
/-- Claim C10: when the historical fetch behind a range export reports
an error, the handler logs it and still produces a success response with
no HTTP error, whose body is exactly the buffered encoding of whatever
events arrived before the error. -/
theorem c10_fetch_error_logged_success
    (pt : String → Option Int) (events : List LogEvent) (errMsg : String)
    (c : Container) (enc : LogEvent → String) (req : Request)
    (hsel : computeStdTypes req.hasStdout req.hasStderr ≠ 0) :
    Action.logError ("error while streaming logs " ++ errMsg)
      ∈ fetchLogsBetweenDates pt (fun _ _ => Except.ok c)
          (fun _ _ _ _ _ => (events, some errMsg)) (fun e => some (enc e)) req
    ∧ (fetchLogsBetweenDates pt (fun _ _ => Except.ok c)
          (fun _ _ _ _ _ => (events, some errMsg)) (fun e => some (enc e)) req).all
        (fun a => !isHttpError a) = true
    ∧ bodyWrites (fetchLogsBetweenDates pt (fun _ _ => Except.ok c)
          (fun _ _ _ _ _ => (events, some errMsg)) (fun e => some (enc e)) req)
      = (events.drop (events.length - 500)).map (fun e => enc e ++ "\n") := by
  have htrace : fetchLogsBetweenDates pt (fun _ _ => Except.ok c)
      (fun _ _ _ _ _ => (events, some errMsg)) (fun e => some (enc e)) req
      = Action.setHeader "Content-Type" "application/x-jsonl; charset=UTF-8"
        :: Action.findContainer req.host req.urlParamId
        :: rangeFetchActions (fun _ _ _ _ _ => (events, some errMsg)) (fun e => some (enc e)) c
             ((pt req.queryFrom).getD 0) ((pt req.queryTo).getD 0)
             (computeStdTypes req.hasStdout req.hasStderr) := by
    unfold fetchLogsBetweenDates
    rw [if_neg hsel]
  have hdata : ((events.foldl RingBuffer.push (RingBuffer.new LogEvent 500)).data)
      = events.drop (events.length - 500) :=
    RingBuffer.new_foldl_data 500 (by omega) events
  have hmem : Action.logError ("error while streaming logs " ++ errMsg)
      ∈ rangeFetchActions (fun _ _ _ _ _ => (events, some errMsg)) (fun e => some (enc e)) c
          ((pt req.queryFrom).getD 0) ((pt req.queryTo).getD 0)
          (computeStdTypes req.hasStdout req.hasStderr) := by
    unfold rangeFetchActions
    apply List.mem_cons_of_mem
    exact List.mem_append_left _ (List.mem_singleton.mpr rfl)
  refine ⟨?_, ?_, ?_⟩
  · rw [htrace]
    exact List.mem_cons_of_mem _ (List.mem_cons_of_mem _ hmem)
  · rw [htrace]
    simp only [List.all_cons, rangeFetchActions_no_httpError]
    rfl
  · rw [htrace]
    unfold rangeFetchActions
    simp only [bodyWrites, List.singleton_append, List.nil_append, hdata,
      encodeAll_total, bodyWrites_map_writeBody]
    exact bodyWrites_map_writeBody (fun e => enc e ++ "\n") _

/-- Witness for C10 at a concrete failing fetch. -/
theorem c10_fetch_error_logged_success_witness :
    computeStdTypes reqBadTimes.hasStdout reqBadTimes.hasStderr ≠ 0
    ∧ (Action.logError ("error while streaming logs " ++ "boom")
        ∈ fetchLogsBetweenDates parseNone (fun _ _ => Except.ok cRun)
            (fun _ _ _ _ _ => ([e0], some "boom")) (fun e => some (e.message)) reqBadTimes
      ∧ (fetchLogsBetweenDates parseNone (fun _ _ => Except.ok cRun)
            (fun _ _ _ _ _ => ([e0], some "boom")) (fun e => some (e.message)) reqBadTimes).all
          (fun a => !isHttpError a) = true
      ∧ bodyWrites (fetchLogsBetweenDates parseNone (fun _ _ => Except.ok cRun)
            (fun _ _ _ _ _ => ([e0], some "boom")) (fun e => some (e.message)) reqBadTimes)
        = ([e0].drop ([e0].length - 500)).map (fun e => e.message ++ "\n")) :=
  ⟨by decide,
   c10_fetch_error_logged_success parseNone [e0] "boom" cRun (fun e => e.message)
     reqBadTimes (by decide)⟩

end Dozzle
